import Mathlib

/-!
Shallow embedding of the medicine-forecast dashboard data pipeline
(`app.py`): the loader (`load_data`) with its month-to-year derivation
and inclusive [2020, 2025] filters, and the derived views of the four
pages (overview metrics and top-5 trend, forecast-comparison medicine
list and per-medicine table, department usage aggregations, executive
summary).  Tables are lists of records together with column-presence
flags (pandas tables may lack optional columns `Month`, `TOTALCOST`,
`ENCOUNTERCLASS`); missing cell values produced by coercion
(`pd.to_datetime(..., errors="coerce")`, `pd.to_numeric(...,
errors="coerce")`) are `Option` values, and comparisons against a
missing value are false, as NaN comparisons are in pandas.
-/

namespace MedForecast

/-- One row of `medication_summary.csv` after the CSV parse.
`monthYear` is the calendar year of the parsed `Month` cell
(`pd.to_datetime` + `.dt.year`), `none` when the cell is unparseable;
`totalCost` and `encounterClass` carry the optional columns whose
presence is recorded on the table. -/
structure MedRow where
  description : String
  dispenses : Int
  totalCost : Int
  encounterClass : String
  monthYear : Option Int
deriving DecidableEq, Repr

/-- The medication-summary table: column-presence flags plus rows. -/
structure MedTable where
  hasMonth : Bool
  hasTotalCost : Bool
  hasEncounterClass : Bool
  rows : List MedRow
deriving DecidableEq, Repr

/-- One row of `actual_forecast_combined.csv`.  `medicine` is `none`
when the cell is missing (NaN); `year` is the result of
`pd.to_numeric(..., errors="coerce")`, so non-numeric input is `none`. -/
structure AfcRow where
  medicine : Option String
  type : String
  year : Option Int
  value : Int
deriving DecidableEq, Repr

/-- The actual/forecast combined table: `Year` column presence plus rows. -/
structure AfcTable where
  hasYear : Bool
  rows : List AfcRow
deriving DecidableEq, Repr

/-- The inclusive year-range test `(Year >= 2020) & (Year <= 2025)`. -/
def yearInRange (y : Int) : Bool :=
  decide (2020 ≤ y) && decide (y ≤ 2025)

/-- Row predicate of the medication filter at app.py:23: a NaN year
(unparseable month) compares false against both bounds, so the row is
dropped. -/
def medYearKeep (r : MedRow) : Bool :=
  match r.monthYear with
  | some y => yearInRange y
  | none => false

/-- Loader half for the medication table (app.py:18-23): when a `Month`
column exists, derive `Year` and keep only rows with year in
[2020, 2025]; otherwise the table passes through unfiltered. -/
def load_meds (t : MedTable) : MedTable :=
  if t.hasMonth then { t with rows := t.rows.filter medYearKeep } else t

/-- Row predicate of the forecast filter at app.py:30. -/
def afcYearKeep (r : AfcRow) : Bool :=
  match r.year with
  | some y => yearInRange y
  | none => false

/-- Loader half for the actual/forecast table (app.py:26-30): when a
`Year` column exists, coerce to numeric and keep only [2020, 2025]. -/
def load_afc (t : AfcTable) : AfcTable :=
  if t.hasYear then { t with rows := t.rows.filter afcYearKeep } else t

/-- The loader `load_data` (app.py:12-32), as a pure function of the two
source tables (CSV reading itself is out of scope). -/
def load_data (meds : MedTable) (afc : AfcTable) : MedTable × AfcTable :=
  (load_meds meds, load_afc afc)

/-- Executable lexicographic comparison of character lists, by code
point, the order Python `sorted` and pandas `sort_values` use on
strings. Stated on `List Char` so that concrete instances reduce in the
kernel. -/
def charsLe : List Char → List Char → Bool
  | [], _ => true
  | _ :: _, [] => false
  | a :: as, b :: bs => if a = b then charsLe as bs else decide (a < b)

/-- Executable string comparison; proved below to agree with the
lexicographic linear order on `String`. -/
def strLe (a b : String) : Bool := charsLe a.data b.data

/-! Dashboard Overview (app.py:55-94) and Executive Summary metrics. -/

/-- Running sum of a projected column, as pandas `Series.sum` over rows. -/
def colSum (f : MedRow → Int) (rows : List MedRow) : Int :=
  rows.foldl (fun s r => s + f r) 0

/-- `total_dispenses = meds["DISPENSES"].sum()` (app.py:59). -/
def total_dispenses (t : MedTable) : Int :=
  colSum MedRow.dispenses t.rows

/-- `unique_meds = meds["DESCRIPTION"].nunique()` (app.py:60): the number
of distinct description values. -/
def unique_meds (t : MedTable) : Nat :=
  ((t.rows.map MedRow.description).dedup).length

/-- `total_cost = meds["TOTALCOST"].sum() if has_total_cost else None`
(app.py:61). -/
def total_cost (t : MedTable) : Option Int :=
  if t.hasTotalCost then some (colSum MedRow.totalCost t.rows) else none

/-- The metric string shown for total cost (app.py:66-69): the dollar
figure when the column exists, the sentinel string otherwise. -/
def costMetric (c : Option Int) : String :=
  match c with
  | some v => "$" ++ toString v
  | none => "N/A"

/-- The Executive Summary page recomputes the same cost metric
(app.py:184) with the identical expression. -/
def exec_total_cost (t : MedTable) : Option Int :=
  if t.hasTotalCost then some (colSum MedRow.totalCost t.rows) else none

/-- Distinct description values, in first-occurrence order. -/
def descriptions (t : MedTable) : List String :=
  (t.rows.map MedRow.description).dedup

/-- All-time summed dispenses of one medicine:
`meds.groupby("DESCRIPTION")["DISPENSES"].sum()` at key `d`. -/
def sumDispFor (t : MedTable) (d : String) : Int :=
  ((t.rows.filter (fun r => r.description == d)).map MedRow.dispenses).sum

/-- Descriptions sorted by summed dispenses, descending
(`.sort_values(ascending=False)` at app.py:77). -/
def descByDispDesc (t : MedTable) : List String :=
  List.insertionSort (fun a b => sumDispFor t b ≤ sumDispFor t a) (descriptions t)

/-- `top_meds`: the 5 medicines with the largest all-time summed
dispenses (app.py:74-80). -/
def top_meds (t : MedTable) : List String :=
  (descByDispDesc t).take 5

/-- `meds_top = meds[meds["DESCRIPTION"].isin(top_meds)]` (app.py:81). -/
def meds_top (t : MedTable) : List MedRow :=
  t.rows.filter (fun r => (top_meds t).contains r.description)

/-- The overview trend side output (app.py:83-94): when a `Year` column
survived loading, the rows of `meds_top` as (medicine, year, dispenses)
triples for the grouped bar chart; otherwise no trend is available. -/
def overviewTrend (t : MedTable) : Option (List (String × Option Int × Int)) :=
  if t.hasMonth then
    some ((meds_top t).map (fun r => (r.description, r.monthYear, r.dispenses)))
  else none

/-! Forecasting by Year (app.py:99-141). -/

/-- The distinct medicine names appearing in the table; pandas
`groupby("Medicine")` silently drops rows whose key is NaN, which
`filterMap` mirrors. -/
def afcMedicines (t : AfcTable) : List String :=
  (t.rows.filterMap AfcRow.medicine).dedup

/-- The `Type` values of all rows of one medicine, used by
`groupby("Medicine")["Type"].nunique()` (app.py:103-107). -/
def typesOf (t : AfcTable) (m : String) : List String :=
  (t.rows.filter (fun r => r.medicine == some m)).map AfcRow.type

/-- `med_list` (app.py:110-111): medicines with at least 2 distinct
`Type` values, sorted ascending by Python `sorted`. -/
def med_list (t : AfcTable) : List String :=
  List.insertionSort (fun a b => strLe a b = true)
    ((afcMedicines t).filter (fun m => 2 ≤ ((typesOf t m).dedup).length))

/-- Order used by `sort_values("Year")` (app.py:122): ascending on the
numeric year, missing values placed last as pandas does. -/
def yearLe (a b : AfcRow) : Bool :=
  match a.year, b.year with
  | some x, some y => decide (x ≤ y)
  | some _, none => true
  | none, none => true
  | none, some _ => false

/-- `df_med` (app.py:120-122): rows of the selected medicine, sorted
ascending by year. A NaN `Medicine` cell never equals a string
selection, so such rows are excluded by the filter. -/
def df_med (t : AfcTable) (m : String) : List AfcRow :=
  List.insertionSort (fun a b => yearLe a b = true)
    (t.rows.filter (fun r => r.medicine == some m))

/-! Department Usage (app.py:147-173) and the Executive Summary
department block (app.py:213-218). -/

/-- One row of the grouped (encounter class, description) table. -/
structure DeptRow where
  encounterClass : String
  description : String
  dispenses : Int
deriving DecidableEq, Repr

/-- Distinct encounter classes, in first-occurrence order. -/
def encounterClasses (t : MedTable) : List String :=
  (t.rows.map MedRow.encounterClass).dedup

/-- Summed dispenses of one encounter class:
`meds.groupby("ENCOUNTERCLASS")["DISPENSES"].sum()` at key `e`. -/
def sumDispForEc (t : MedTable) (e : String) : Int :=
  ((t.rows.filter (fun r => r.encounterClass == e)).map MedRow.dispenses).sum

/-- `dept_summary` on the Department Usage page (app.py:151-155): per
encounter class summed dispenses, sorted descending by the sum; `none`
when the column is absent (app.py:150, 172-173). -/
def dept_summary (t : MedTable) : Option (List (String × Int)) :=
  if t.hasEncounterClass then
    some (List.insertionSort (fun a b => b.2 ≤ a.2)
      ((encounterClasses t).map (fun e => (e, sumDispForEc t e))))
  else none

/-- `dept_summary` as recomputed on the Executive Summary page
(app.py:213-218), with the identical pipeline and guard. -/
def exec_dept_summary (t : MedTable) : Option (List (String × Int)) :=
  if t.hasEncounterClass then
    some (List.insertionSort (fun a b => b.2 ≤ a.2)
      ((encounterClasses t).map (fun e => (e, sumDispForEc t e))))
  else none

/-- Distinct (encounter class, description) pairs, in first-occurrence
order. -/
def deptPairs (t : MedTable) : List (String × String) :=
  (t.rows.map (fun r => (r.encounterClass, r.description))).dedup

/-- Summed dispenses of one (encounter class, description) group. -/
def sumDispForPair (t : MedTable) (k : String × String) : Int :=
  ((t.rows.filter
      (fun r => r.encounterClass == k.1 && r.description == k.2)).map
    MedRow.dispenses).sum

/-- The grouped per-pair table before sorting (app.py:166-168). -/
def groupedByDept (t : MedTable) : List DeptRow :=
  (deptPairs t).map (fun k => ⟨k.1, k.2, sumDispForPair t k⟩)

/-- Order of `sort_values(["ENCOUNTERCLASS", "DISPENSES"],
ascending=[True, False])` (app.py:169): encounter class ascending, then
dispenses descending. -/
def deptRowLe (a b : DeptRow) : Bool :=
  if a.encounterClass = b.encounterClass then
    decide (b.dispenses ≤ a.dispenses)
  else strLe a.encounterClass b.encounterClass

/-- `top_by_dept` as displayed (app.py:166-171): the doubly-sorted
grouped table globally truncated to its first 50 rows by `.head(50)`;
`none` when the encounter-class column is absent. -/
def top_by_dept (t : MedTable) : Option (List DeptRow) :=
  if t.hasEncounterClass then
    some ((List.insertionSort (fun a b => deptRowLe a b = true)
      (groupedByDept t)).take 50)
  else none

/-! Small concrete tables, used to instantiate the theorems below on
closed inputs (they mirror the scenarios of spec.md §8). -/

/-- A medication table with a `Month` column and no `TOTALCOST`: an
in-range Aspirin row, an out-of-range 2019 row, an in-range Ibuprofen
row and a row whose month failed to parse. -/
def medsA : MedTable :=
  { hasMonth := true, hasTotalCost := false, hasEncounterClass := true,
    rows := [⟨"Aspirin", 10, 0, "ambulatory", some 2021⟩,
             ⟨"Aspirin", 999, 0, "ambulatory", some 2019⟩,
             ⟨"Ibuprofen", 3, 0, "wellness", some 2022⟩,
             ⟨"Ibuprofen", 4, 0, "ambulatory", none⟩] }

/-- A medication table lacking `Month`, `TOTALCOST` and
`ENCOUNTERCLASS`. -/
def medsB : MedTable :=
  { hasMonth := false, hasTotalCost := false, hasEncounterClass := false,
    rows := [⟨"Aspirin", 5, 7, "x", none⟩] }

/-- A forecast table with eligible medicines "A" and "B", a
single-type medicine "X", rows with a missing medicine name, an
out-of-range year and a non-numeric year. -/
def afcA : AfcTable :=
  { hasYear := true,
    rows := [⟨some "B", "Actual", some 2021, 5⟩,
             ⟨some "B", "Forecast", some 2022, 7⟩,
             ⟨some "X", "Actual", some 2021, 5⟩,
             ⟨none, "Actual", some 2021, 1⟩,
             ⟨none, "Forecast", some 2022, 2⟩,
             ⟨some "A", "Forecast", some 2020, 3⟩,
             ⟨some "A", "Actual", some 2030, 4⟩,
             ⟨some "A", "Actual", none, 4⟩,
             ⟨some "A", "Actual", some 2020, 9⟩] }

/-- A medication table with `TOTALCOST` present but `ENCOUNTERCLASS`
absent, the converse mix of medsA. -/
def medsD : MedTable :=
  { hasMonth := false, hasTotalCost := true, hasEncounterClass := false,
    rows := [⟨"Aspirin", 5, 7, "x", none⟩] }

/-- A medication table with six medicines, so that one of them falls
outside the top-5 trend selection. -/
def medsC : MedTable :=
  { hasMonth := true, hasTotalCost := false, hasEncounterClass := false,
    rows := [⟨"M1", 60, 0, "", some 2020⟩, ⟨"M2", 50, 0, "", some 2021⟩,
             ⟨"M3", 40, 0, "", some 2022⟩, ⟨"M4", 30, 0, "", some 2023⟩,
             ⟨"M5", 20, 0, "", some 2024⟩, ⟨"M6", 10, 0, "", some 2025⟩] }

/-! Order lemmas bridging the executable comparisons to the ambient
linear orders. -/

theorem list_char_lt_cons_iff {a b : Char} {as bs : List Char} :
    (a :: as : List Char) < (b :: bs) ↔ a < b ∨ (a = b ∧ as < bs) := by
  constructor
  · intro h
    replace h : List.Lex (· < ·) (a :: as) (b :: bs) := h
    cases h with
    | cons h => exact Or.inr ⟨rfl, h⟩
    | rel h => exact Or.inl h
  · rintro (h | ⟨rfl, h⟩)
    · exact List.Lex.rel h
    · exact List.Lex.cons h

theorem list_char_cons_le_cons_iff {a b : Char} {as bs : List Char} :
    (a :: as : List Char) ≤ (b :: bs) ↔ a < b ∨ (a = b ∧ as ≤ bs) := by
  simp only [le_iff_lt_or_eq, list_char_lt_cons_iff, List.cons.injEq]
  tauto

theorem charsLe_iff : ∀ l₁ l₂ : List Char, charsLe l₁ l₂ = true ↔ l₁ ≤ l₂
  | [], l₂ => by simp [charsLe]
  | a :: as, [] => by
      simp only [charsLe, Bool.false_eq_true, false_iff]
      exact fun h => absurd (lt_of_lt_of_le (List.nil_lt_cons a as) h) (lt_irrefl _)
  | a :: as, b :: bs => by
      rw [charsLe, list_char_cons_le_cons_iff]
      by_cases hab : a = b
      · subst hab
        rw [if_pos rfl, charsLe_iff as bs]
        simp [lt_irrefl]
      · rw [if_neg hab]
        simp [hab]

theorem strLe_iff (a b : String) : strLe a b = true ↔ a ≤ b := by
  rw [strLe, charsLe_iff]
  exact String.le_iff_toList_le.symm

theorem strLe_total (a b : String) : strLe a b = true ∨ strLe b a = true := by
  rw [strLe_iff, strLe_iff]
  exact le_total a b

theorem strLe_trans {a b c : String} (h₁ : strLe a b = true)
    (h₂ : strLe b c = true) : strLe a c = true := by
  rw [strLe_iff] at h₁ h₂ ⊢
  exact le_trans h₁ h₂

theorem strLe_antisymm {a b : String} (h₁ : strLe a b = true)
    (h₂ : strLe b a = true) : a = b := by
  rw [strLe_iff] at h₁ h₂
  exact le_antisymm h₁ h₂

/-! Characterizations of the loader predicates and of the sort orders. -/

theorem medYearKeep_iff (r : MedRow) :
    medYearKeep r = true ↔ ∃ y, r.monthYear = some y ∧ 2020 ≤ y ∧ y ≤ 2025 := by
  cases h : r.monthYear <;> simp [medYearKeep, h, yearInRange]

theorem afcYearKeep_iff (r : AfcRow) :
    afcYearKeep r = true ↔ ∃ y, r.year = some y ∧ 2020 ≤ y ∧ y ≤ 2025 := by
  cases h : r.year <;> simp [afcYearKeep, h, yearInRange]

theorem colSum_go (f : MedRow → Int) :
    ∀ (l : List MedRow) (a : Int), l.foldl (fun s r => s + f r) a = a + (l.map f).sum
  | [], a => by simp
  | r :: l, a => by
      simp [colSum_go f l, add_assoc]

theorem colSum_eq (f : MedRow → Int) (l : List MedRow) :
    colSum f l = (l.map f).sum := by
  simp [colSum, colSum_go]

theorem yearLe_total (a b : AfcRow) : yearLe a b = true ∨ yearLe b a = true := by
  cases ha : a.year <;> cases hb : b.year <;> simp [yearLe, ha, hb]
  exact Int.le_total _ _

theorem yearLe_trans {a b c : AfcRow} (h₁ : yearLe a b = true)
    (h₂ : yearLe b c = true) : yearLe a c = true := by
  cases ha : a.year <;> cases hb : b.year <;> cases hc : c.year
  all_goals simp_all [yearLe]
  all_goals omega

theorem deptRowLe_total (a b : DeptRow) :
    deptRowLe a b = true ∨ deptRowLe b a = true := by
  by_cases h : a.encounterClass = b.encounterClass
  · rw [deptRowLe, deptRowLe, if_pos h, if_pos h.symm]
    simp only [decide_eq_true_eq]
    exact (Int.le_total _ _).symm
  · have h' : ¬ b.encounterClass = a.encounterClass := fun e => h e.symm
    simp only [deptRowLe, if_neg h, if_neg h']
    exact strLe_total _ _

theorem deptRowLe_trans {a b c : DeptRow} (h₁ : deptRowLe a b = true)
    (h₂ : deptRowLe b c = true) : deptRowLe a c = true := by
  unfold deptRowLe at *
  by_cases hab : a.encounterClass = b.encounterClass <;>
    by_cases hbc : b.encounterClass = c.encounterClass
  · rw [if_pos hab] at h₁
    rw [if_pos hbc] at h₂
    rw [if_pos (hab.trans hbc), decide_eq_true_eq]
    rw [decide_eq_true_eq] at h₁ h₂
    exact le_trans h₂ h₁
  · have hac : ¬ a.encounterClass = c.encounterClass := fun e => hbc (hab ▸ e)
    rw [if_neg hbc] at h₂
    rw [if_neg hac]
    exact hab ▸ h₂
  · have hac : ¬ a.encounterClass = c.encounterClass := fun e => hab (e.trans hbc.symm)
    rw [if_neg hab] at h₁
    rw [if_neg hac]
    exact hbc ▸ h₁
  · rw [if_neg hab] at h₁
    rw [if_neg hbc] at h₂
    by_cases hac : a.encounterClass = c.encounterClass
    · exact absurd (strLe_antisymm h₁ (hac ▸ h₂)) hab
    · rw [if_neg hac]
      exact strLe_trans h₁ h₂

theorem mem_afcMedicines_of_types {t : AfcTable} {m : String}
    (h : 2 ≤ ((typesOf t m).dedup).length) : m ∈ afcMedicines t := by
  rcases hf : t.rows.filter (fun r => r.medicine == some m) with _ | ⟨r, l⟩
  · rw [typesOf, hf] at h
    simp at h
  · have hr : r ∈ t.rows.filter (fun r => r.medicine == some m) := by
      rw [hf]
      exact List.mem_cons_self r l
    rw [List.mem_filter] at hr
    refine List.mem_dedup.mpr (List.mem_filterMap.mpr ⟨r, hr.1, ?_⟩)
    have := hr.2
    simpa only [beq_iff_eq] using this

/-! Claim theorems. -/

/-- C1: every medication row retained by the loader has a derivable year
in [2020, 2025] (rows with unparseable months or out-of-range years are
excluded, the retained rows being exactly the filtered ones), the same
filter holds for the forecast table with non-numeric years treated as
missing, and excluded rows appear in no downstream view (the forecast
comparison and the overview trend only ever show in-range rows). -/
theorem C1_year_range_invariant (meds : MedTable) (afc : AfcTable)
    (hm : meds.hasMonth = true) (hy : afc.hasYear = true) :
    (∀ r ∈ (load_meds meds).rows, ∃ y, r.monthYear = some y ∧ 2020 ≤ y ∧ y ≤ 2025) ∧
    (load_meds meds).rows = meds.rows.filter medYearKeep ∧
    (∀ r ∈ (load_afc afc).rows, ∃ y, r.year = some y ∧ 2020 ≤ y ∧ y ≤ 2025) ∧
    (load_afc afc).rows = afc.rows.filter afcYearKeep ∧
    (∀ m r, r ∈ df_med (load_afc afc) m →
      ∃ y, r.year = some y ∧ 2020 ≤ y ∧ y ≤ 2025) ∧
    (∀ l x, overviewTrend (load_meds meds) = some l → x ∈ l →
      ∃ y, x.2.1 = some y ∧ 2020 ≤ y ∧ y ≤ 2025) := by
  have hmeds : (load_meds meds).rows = meds.rows.filter medYearKeep := by
    rw [load_meds, if_pos hm]
  have hafc : (load_afc afc).rows = afc.rows.filter afcYearKeep := by
    rw [load_afc, if_pos hy]
  have hmr : ∀ r ∈ (load_meds meds).rows,
      ∃ y, r.monthYear = some y ∧ 2020 ≤ y ∧ y ≤ 2025 := by
    intro r hr
    rw [hmeds, List.mem_filter] at hr
    exact (medYearKeep_iff r).mp hr.2
  have har : ∀ r ∈ (load_afc afc).rows,
      ∃ y, r.year = some y ∧ 2020 ≤ y ∧ y ≤ 2025 := by
    intro r hr
    rw [hafc, List.mem_filter] at hr
    exact (afcYearKeep_iff r).mp hr.2
  refine ⟨hmr, hmeds, har, hafc, ?_, ?_⟩
  · intro m r hr
    rw [df_med, List.mem_insertionSort, List.mem_filter] at hr
    exact har r hr.1
  · intro l x hl hx
    have hm' : (load_meds meds).hasMonth = true := by
      rw [load_meds, if_pos hm]
      exact hm
    rw [overviewTrend, if_pos hm'] at hl
    injection hl with hl
    rcases List.mem_map.mp (hl ▸ hx) with ⟨r, hrm, hre⟩
    rw [meds_top, List.mem_filter] at hrm
    rcases hmr r hrm.1 with ⟨y, hy1, hy2⟩
    refine ⟨y, ?_, hy2⟩
    rw [← hre]
    exact hy1

/-- C1 witness: the loader applied to the concrete tables, hypotheses
discharged by evaluation. -/
theorem C1_year_range_invariant_witness :
    medsA.hasMonth = true ∧ afcA.hasYear = true ∧
    (load_meds medsA).rows = medsA.rows.filter medYearKeep ∧
    (load_afc afcA).rows = afcA.rows.filter afcYearKeep :=
  ⟨rfl, rfl, (C1_year_range_invariant medsA afcA rfl rfl).2.1,
    (C1_year_range_invariant medsA afcA rfl rfl).2.2.2.1⟩

/-- C5: the two column absences independently, on any one table:
whenever `TOTALCOST` is absent every cost-dependent view yields the
explicit not-available sentinel (never `some` of any number, in
particular never zero), and whenever `ENCOUNTERCLASS` is absent both
department-usage tables are the not-available output instead of
raising — each regardless of the other column's presence. -/
theorem C5_missing_optional_columns (t : MedTable) :
    (t.hasTotalCost = false →
      total_cost t = none ∧ exec_total_cost t = none ∧
      costMetric (total_cost t) = "N/A" ∧ ∀ v : Int, total_cost t ≠ some v) ∧
    (t.hasEncounterClass = false →
      dept_summary t = none ∧ top_by_dept t = none) := by
  constructor
  · intro hc
    refine ⟨?_, ?_, ?_, ?_⟩ <;> simp [total_cost, exec_total_cost, costMetric, hc]
  · intro he
    exact ⟨by simp [dept_summary, he], by simp [top_by_dept, he]⟩

/-- C5 witness: the cost half on a table that still has the
encounter-class column, the department half on a table that still has
the cost column. -/
theorem C5_missing_optional_columns_witness :
    medsA.hasTotalCost = false ∧ medsA.hasEncounterClass = true ∧
    medsD.hasTotalCost = true ∧ medsD.hasEncounterClass = false ∧
    total_cost medsA = none ∧ exec_total_cost medsA = none ∧
    costMetric (total_cost medsA) = "N/A" ∧ total_cost medsA ≠ some 0 ∧
    dept_summary medsD = none ∧ top_by_dept medsD = none :=
  ⟨rfl, rfl, rfl, rfl,
    ((C5_missing_optional_columns medsA).1 rfl).1,
    ((C5_missing_optional_columns medsA).1 rfl).2.1,
    ((C5_missing_optional_columns medsA).1 rfl).2.2.1,
    ((C5_missing_optional_columns medsA).1 rfl).2.2.2 0,
    ((C5_missing_optional_columns medsD).2 rfl).1,
    ((C5_missing_optional_columns medsD).2 rfl).2⟩

/-- C7: the overview scalar `unique_medicines` is the number of distinct
description values of the post-filter table and `total_dispenses` is the
sum of the dispenses column. -/
theorem C7_overview_scalars (t : MedTable) :
    total_dispenses t = (t.rows.map MedRow.dispenses).sum ∧
    unique_meds t = ((t.rows.map MedRow.description).toFinset).card := by
  refine ⟨colSum_eq _ _, ?_⟩
  rw [unique_meds, List.card_toFinset]

/-- C7 witness: the scalars on the loaded concrete table. -/
theorem C7_overview_scalars_witness :
    total_dispenses (load_meds medsA) =
      ((load_meds medsA).rows.map MedRow.dispenses).sum ∧
    unique_meds (load_meds medsA) =
      (((load_meds medsA).rows.map MedRow.description).toFinset).card :=
  C7_overview_scalars (load_meds medsA)

/-- C8: the loader is a pure function of its two source tables (two
calls on unchanged sources give identical tables), and its filtering is
idempotent: re-loading an already loaded table changes nothing. -/
theorem C8_loader_deterministic (meds : MedTable) (afc : AfcTable) :
    load_data meds afc = load_data meds afc ∧
    load_meds (load_meds meds) = load_meds meds ∧
    load_afc (load_afc afc) = load_afc afc := by
  refine ⟨rfl, ?_, ?_⟩
  · by_cases h : meds.hasMonth <;> simp [load_meds, h, List.filter_filter]
  · by_cases h : afc.hasYear <;> simp [load_afc, h, List.filter_filter]

/-- C8 witness: determinism and idempotence on the concrete tables. -/
theorem C8_loader_deterministic_witness :
    load_data medsA afcA = load_data medsA afcA ∧
    load_meds (load_meds medsA) = load_meds medsA ∧
    load_afc (load_afc afcA) = load_afc afcA :=
  C8_loader_deterministic medsA afcA

/-- C9: the department-usage summary computed on the Executive Summary
page is the identical derived table computed on the Department Usage
page, for every medication table. -/
theorem C9_dept_summary_eq (t : MedTable) :
    dept_summary t = exec_dept_summary t := rfl

/-- C9 witness: the two pages agree on the loaded concrete table. -/
theorem C9_dept_summary_eq_witness :
    dept_summary (load_meds medsA) = exec_dept_summary (load_meds medsA) :=
  C9_dept_summary_eq (load_meds medsA)

/-- C2: the selectable medicine list of the Forecast Comparison page
contains exactly the medicines with at least 2 distinct type values, is
sorted lexicographically ascending and has no duplicates; in particular
a medicine observed with a single type anywhere is absent. -/
theorem C2_med_list_eligibility (t : AfcTable) :
    (∀ m, m ∈ med_list t ↔ 2 ≤ ((typesOf t m).toFinset).card) ∧
    (med_list t).Sorted (· ≤ ·) ∧ (med_list t).Nodup := by
  haveI : IsTotal String (fun a b => strLe a b = true) := ⟨strLe_total⟩
  haveI : IsTrans String (fun a b => strLe a b = true) :=
    ⟨fun a b c h₁ h₂ => strLe_trans h₁ h₂⟩
  refine ⟨?_, ?_, ?_⟩
  · intro m
    rw [med_list, List.mem_insertionSort, List.mem_filter, List.card_toFinset]
    constructor
    · rintro ⟨-, h⟩
      simpa using h
    · intro h
      exact ⟨mem_afcMedicines_of_types h, by simpa using h⟩
  · rw [med_list]
    refine List.Pairwise.imp ?_ (List.sorted_insertionSort _ _)
    exact fun h => (strLe_iff _ _).mp h
  · rw [med_list]
    exact ((List.perm_insertionSort _ _).nodup_iff).mpr
      ((List.nodup_dedup _).filter _)

/-- C2 witness: the eligibility list of the loaded concrete forecast
table. -/
theorem C2_med_list_eligibility_witness :
    ("A" ∈ med_list (load_afc afcA) ↔
      2 ≤ ((typesOf (load_afc afcA) "A").toFinset).card) ∧
    (med_list (load_afc afcA)).Sorted (· ≤ ·) ∧
    (med_list (load_afc afcA)).Nodup :=
  ⟨(C2_med_list_eligibility (load_afc afcA)).1 "A",
   (C2_med_list_eligibility (load_afc afcA)).2.1,
   (C2_med_list_eligibility (load_afc afcA)).2.2⟩

/-- C6: for any selected medicine, the forecast comparison table
consists of exactly the rows of the forecast table whose medicine equals
the selection (a permutation of that filter, rows kept whole so type and
value are unchanged), sorted ascending by year. -/
theorem C6_forecast_comparison (t : AfcTable) (m : String) :
    List.Perm (df_med t m) (t.rows.filter (fun r => r.medicine == some m)) ∧
    (∀ r, r ∈ df_med t m ↔ r ∈ t.rows ∧ r.medicine = some m) ∧
    (df_med t m).Sorted (fun a b => yearLe a b = true) ∧
    (df_med t m).Pairwise
      (fun a b => ∀ x y, a.year = some x → b.year = some y → x ≤ y) := by
  haveI : IsTotal AfcRow (fun a b => yearLe a b = true) := ⟨yearLe_total⟩
  haveI : IsTrans AfcRow (fun a b => yearLe a b = true) :=
    ⟨fun a b c h₁ h₂ => yearLe_trans h₁ h₂⟩
  refine ⟨List.perm_insertionSort _ _, ?_, List.sorted_insertionSort _ _, ?_⟩
  · intro r
    rw [df_med, List.mem_insertionSort, List.mem_filter]
    simp
  · refine List.Pairwise.imp ?_ (List.sorted_insertionSort _ _)
    intro a b hab x y hx hy
    simp only [yearLe, hx, hy, decide_eq_true_eq] at hab
    exact hab

/-- C6 witness: the comparison table for medicine "A" of the loaded
concrete forecast table. -/
theorem C6_forecast_comparison_witness :
    List.Perm (df_med (load_afc afcA) "A")
      ((load_afc afcA).rows.filter (fun r => r.medicine == some "A")) ∧
    (df_med (load_afc afcA) "A").Sorted (fun a b => yearLe a b = true) ∧
    (df_med (load_afc afcA) "A").Pairwise
      (fun a b => ∀ x y, a.year = some x → b.year = some y → x ≤ y) :=
  ⟨(C6_forecast_comparison (load_afc afcA) "A").1,
   (C6_forecast_comparison (load_afc afcA) "A").2.2.1,
   (C6_forecast_comparison (load_afc afcA) "A").2.2.2⟩

/-- C10: the selectable medicine list never contains a missing medicine
name: every listed name is carried by some actual row, and dropping the
rows whose medicine cell is missing changes nothing about the list. -/
theorem C10_missing_medicine_excluded (t : AfcTable) :
    (∀ m ∈ med_list t, ∃ r ∈ t.rows, r.medicine = some m) ∧
    med_list { t with rows := t.rows.filter (fun r => r.medicine.isSome) } =
      med_list t := by
  constructor
  · intro m hm
    rw [med_list, List.mem_insertionSort, List.mem_filter] at hm
    have h1 := hm.1
    rw [afcMedicines, List.mem_dedup, List.mem_filterMap] at h1
    rcases h1 with ⟨r, hr, hrm⟩
    exact ⟨r, hr, hrm⟩
  · have hmed :
        afcMedicines { t with rows := t.rows.filter (fun r => r.medicine.isSome) } =
          afcMedicines t := by
      rw [afcMedicines, afcMedicines]
      congr 1
      induction t.rows with
      | nil => rfl
      | cons r l ih =>
          cases hr : r.medicine <;>
            simp [List.filter_cons, List.filterMap_cons, hr, ih]
    have htypes :
        ∀ m, typesOf { t with rows := t.rows.filter (fun r => r.medicine.isSome) } m =
          typesOf t m := by
      intro m
      rw [typesOf, typesOf]
      congr 1
      induction t.rows with
      | nil => rfl
      | cons r l ih =>
          cases hr : r.medicine <;>
            simp [List.filter_cons, hr, ih]
    rw [med_list, med_list, hmed]
    simp only [htypes]

/-- C10 witness: the concrete forecast table containing rows with a
missing medicine name. -/
theorem C10_missing_medicine_excluded_witness :
    ("A" ∈ med_list afcA) ∧ (∃ r ∈ afcA.rows, r.medicine = some "A") ∧
    med_list { afcA with rows := afcA.rows.filter (fun r => r.medicine.isSome) } =
      med_list afcA :=
  ⟨by decide, (C10_missing_medicine_excluded afcA).1 "A" (by decide),
    (C10_missing_medicine_excluded afcA).2⟩

/-- C3: the displayed per-(encounter class, description) table has at
most 50 rows and, being a global truncation of the doubly-sorted
grouped table, is ascending in encounter class over every pair of rows
and non-increasing in dispenses on every pair of rows of one encounter
class (hence within each contiguous run). -/
theorem C3_top_by_dept_truncation (t : MedTable) (l : List DeptRow)
    (h : top_by_dept t = some l) :
    l.length ≤ 50 ∧
    l.Pairwise (fun a b => a.encounterClass ≤ b.encounterClass) ∧
    l.Pairwise (fun a b => a.encounterClass = b.encounterClass →
      b.dispenses ≤ a.dispenses) := by
  haveI : IsTotal DeptRow (fun a b => deptRowLe a b = true) := ⟨deptRowLe_total⟩
  haveI : IsTrans DeptRow (fun a b => deptRowLe a b = true) :=
    ⟨fun a b c h₁ h₂ => deptRowLe_trans h₁ h₂⟩
  rw [top_by_dept] at h
  by_cases he : t.hasEncounterClass = true
  case neg =>
    rw [if_neg he] at h
    exact absurd h (by simp)
  rw [if_pos he] at h
  injection h with h
  subst h
  have hs : List.Sorted (fun a b => deptRowLe a b = true)
      ((List.insertionSort (fun a b => deptRowLe a b = true)
        (groupedByDept t)).take 50) :=
    List.Pairwise.sublist (List.take_sublist _ _) (List.sorted_insertionSort _ _)
  refine ⟨List.length_take_le _ _, ?_, ?_⟩
  · refine hs.imp ?_
    intro a b hab
    by_cases hec : a.encounterClass = b.encounterClass
    · exact le_of_eq hec
    · rw [deptRowLe, if_neg hec] at hab
      exact (strLe_iff _ _).mp hab
  · refine hs.imp ?_
    intro a b hab hec
    rw [deptRowLe, if_pos hec, decide_eq_true_eq] at hab
    exact hab

/-- C3 witness: the department table of the loaded concrete medication
table. -/
theorem C3_top_by_dept_truncation_witness :
    top_by_dept (load_meds medsA) =
      some [⟨"ambulatory", "Aspirin", 10⟩, ⟨"wellness", "Ibuprofen", 3⟩] ∧
    ([(⟨"ambulatory", "Aspirin", 10⟩ : DeptRow),
      ⟨"wellness", "Ibuprofen", 3⟩]).length ≤ 50 ∧
    ([(⟨"ambulatory", "Aspirin", 10⟩ : DeptRow),
      ⟨"wellness", "Ibuprofen", 3⟩]).Pairwise
        (fun a b => a.encounterClass ≤ b.encounterClass) :=
  ⟨by decide,
   (C3_top_by_dept_truncation (load_meds medsA) _ (by decide)).1,
   (C3_top_by_dept_truncation (load_meds medsA) _ (by decide)).2.1⟩

/-- C4: the overview trend contains only rows of the 5 medicines with
the largest all-time summed dispenses (each trend row being the
(medicine, year, dispenses) triple of a retained source row, and every
medicine outside the selection having a sum no larger than every
selected one), and degenerates to the no-trend output when no year
column survived loading. -/
theorem C4_overview_trend_top5 (t : MedTable) :
    (t.hasMonth = false → overviewTrend t = none) ∧
    (∀ l, overviewTrend t = some l → ∀ x ∈ l,
      x.1 ∈ top_meds t ∧
      ∃ r ∈ t.rows, r.description = x.1 ∧ r.monthYear = x.2.1 ∧
        r.dispenses = x.2.2) ∧
    (top_meds t).length ≤ 5 ∧
    (∀ m ∈ top_meds t, ∀ d ∈ descriptions t, d ∉ top_meds t →
      sumDispFor t d ≤ sumDispFor t m) := by
  haveI : IsTotal String (fun a b => sumDispFor t b ≤ sumDispFor t a) :=
    ⟨fun a b => Int.le_total _ _⟩
  haveI : IsTrans String (fun a b => sumDispFor t b ≤ sumDispFor t a) :=
    ⟨fun a b c h₁ h₂ => le_trans h₂ h₁⟩
  refine ⟨?_, ?_, ?_, ?_⟩
  · intro h
    rw [overviewTrend, if_neg]
    simp [h]
  · intro l hl x hx
    rw [overviewTrend] at hl
    by_cases hm : t.hasMonth = true
    case neg =>
      rw [if_neg hm] at hl
      exact absurd hl (by simp)
    rw [if_pos hm] at hl
    injection hl with hl
    rcases List.mem_map.mp (hl ▸ hx) with ⟨r, hrm, hre⟩
    rw [meds_top, List.mem_filter] at hrm
    constructor
    · have hc := hrm.2
      rw [← hre]
      simpa using hc
    · exact ⟨r, hrm.1, by rw [← hre], by rw [← hre], by rw [← hre]⟩
  · rw [top_meds]
    exact List.length_take_le _ _
  · intro m hm d hd hdn
    rw [top_meds] at hm hdn
    have hsort : List.Sorted (fun a b => sumDispFor t b ≤ sumDispFor t a)
        (descByDispDesc t) := by
      rw [descByDispDesc]
      exact List.sorted_insertionSort _ _
    have hdL : d ∈ descByDispDesc t := by
      rw [descByDispDesc, List.mem_insertionSort]
      exact hd
    have hsplit : descByDispDesc t =
        (descByDispDesc t).take 5 ++ (descByDispDesc t).drop 5 :=
      (List.take_append_drop 5 (descByDispDesc t)).symm
    have hdrop : d ∈ (descByDispDesc t).drop 5 := by
      rcases List.mem_append.mp (hsplit ▸ hdL) with h | h
      · exact absurd h hdn
      · exact h
    have hpair := hsort
    rw [hsplit] at hpair
    rcases List.pairwise_append.mp hpair with ⟨-, -, hrel⟩
    exact hrel m hm d hdrop

/-- C4 witness: the degenerate no-year table, the trend bound on the
loaded concrete table, and the top-5 maximality on the six-medicine
table. -/
theorem C4_overview_trend_top5_witness :
    (medsB.hasMonth = false ∧ overviewTrend medsB = none) ∧
    (top_meds (load_meds medsA)).length ≤ 5 ∧
    ("M1" ∈ top_meds medsC ∧ "M6" ∈ descriptions medsC ∧
      "M6" ∉ top_meds medsC ∧ sumDispFor medsC "M6" ≤ sumDispFor medsC "M1") :=
  ⟨⟨rfl, (C4_overview_trend_top5 medsB).1 rfl⟩,
   (C4_overview_trend_top5 (load_meds medsA)).2.2.1,
   by decide, by decide, by decide,
   (C4_overview_trend_top5 medsC).2.2.2 "M1" (by decide) "M6" (by decide)
     (by decide)⟩

end MedForecast
